import Mathlib

set_option maxRecDepth 4000

/-!
Shallow embedding of the apigee-backup orchestrator (main.go).

External effects (exec of gsutil / apigeecli / zip, filesystem calls,
webhook HTTP posts) are modelled by an environment record whose fields
give each call's result, and by an event trace recording which external
invocations happen.  Go strings are modelled as Lean strings over their
characters (the program only manipulates ASCII here, where Go's
byte-indexed slicing and Lean's character indexing agree).  A Go runtime
panic (e.g. a slice-bounds violation) is modelled as the value none.
-/

/- ---------- String helpers mirroring the Go standard library ---------- -/

/-- Does the character list start with the given pattern? -/
def leadsWith : List Char → List Char → Bool
  | [], _ => true
  | _ :: _, [] => false
  | p :: ps, c :: cs => p == c && leadsWith ps cs

/-- Substring search on character lists. -/
def listContainsSub (pat : List Char) : List Char → Bool
  | [] => leadsWith pat []
  | c :: cs => leadsWith pat (c :: cs) || listContainsSub pat cs

/-- Model of Go strings.Contains. -/
def strContains (s pat : String) : Bool :=
  listContainsSub pat.toList s.toList

/-- Model of Go strings.HasPrefix. -/
def strStartsWith (s pre : String) : Bool :=
  leadsWith pre.toList s.toList

/-- Model of Go strings.HasSuffix. -/
def strEndsWith (s suf : String) : Bool :=
  leadsWith suf.toList.reverse s.toList.reverse

/-- Split a character list at every occurrence of the separator. -/
def splitOnChar (c : Char) : List Char → List (List Char)
  | [] => [[]]
  | x :: xs =>
    let r := splitOnChar c xs
    if x == c then [] :: r
    else
      match r with
      | [] => [[x]]
      | h :: t => (x :: h) :: t

/-- Go whitespace class used by strings.TrimSpace (ASCII part). -/
def isGoSpace (c : Char) : Bool :=
  c == ' ' || c == '\t' || c == '\n' || c == '\r' ||
  c == Char.ofNat 11 || c == Char.ofNat 12

/-- Model of Go strings.TrimSpace over ASCII text. -/
def goTrimSpace (s : String) : String :=
  ⟨((s.toList.dropWhile isGoSpace).reverse.dropWhile isGoSpace).reverse⟩

/-- Drop a single trailing carriage return, as bufio.ScanLines does. -/
def dropCR (s : String) : String :=
  if strEndsWith s "\r" then ⟨s.toList.dropLast⟩ else s

/-- Model of the token sequence produced by bufio.Scanner with ScanLines:
split at newline characters; a trailing newline yields no extra empty
token; empty input yields no tokens. -/
def goScanLines (s : String) : List String :=
  if s = "" then []
  else
    let parts := (splitOnChar '\n' s.toList).map (fun l => String.mk l)
    let parts := if strEndsWith s "\n" then parts.dropLast else parts
    parts.map dropCR

/-- Model of Go filepath.Base. -/
def goFilepathBase (s : String) : String :=
  if s = "" then "."
  else
    let r := s.toList.reverse.dropWhile (fun c => c == '/')
    if r = [] then "/"
    else ⟨(r.takeWhile (fun c => c != '/')).reverse⟩

/-- Model of the Go slice expression s[low:high]: none models the runtime
panic raised when the bounds are invalid. -/
def goStringSlice (s : String) (low high : Int) : Option String :=
  if 0 ≤ low ∧ low ≤ high ∧ high ≤ (s.length : Int) then
    some ⟨(s.toList.take high.toNat).drop low.toNat⟩
  else none

/- ---------- Dates, mirroring time.Parse("2006-01-02", _) ---------- -/

structure GoDate where
  year : Nat
  month : Nat
  day : Nat
deriving DecidableEq

def digitVal (c : Char) : Nat := c.toNat - 48

def isLeapYear (y : Nat) : Bool :=
  y % 4 == 0 && (y % 100 != 0 || y % 400 == 0)

def goDaysIn (y m : Nat) : Nat :=
  if m == 2 then (if isLeapYear y then 29 else 28)
  else if m == 4 || m == 6 || m == 9 || m == 11 then 30
  else 31

/-- Model of Go time.Parse with layout 2006-01-02: exactly four year
digits, two month digits and two day digits separated by hyphens, with
the month and day checked against the calendar. -/
def parseGoDate (s : String) : Option GoDate :=
  match s.toList with
  | [y1, y2, y3, y4, h1, m1, m2, h2, d1, d2] =>
    if y1.isDigit && y2.isDigit && y3.isDigit && y4.isDigit &&
       h1 == '-' && m1.isDigit && m2.isDigit &&
       h2 == '-' && d1.isDigit && d2.isDigit then
      let y := 1000 * digitVal y1 + 100 * digitVal y2 + 10 * digitVal y3 + digitVal y4
      let m := 10 * digitVal m1 + digitVal m2
      let d := 10 * digitVal d1 + digitVal d2
      if 1 ≤ m && m ≤ 12 && 1 ≤ d && d ≤ goDaysIn y m then some ⟨y, m, d⟩
      else none
    else none
  | _ => none

/-- Days since 1970-01-01 of a civil date (proleptic Gregorian). -/
def daysFromCivil (y m d : Int) : Int :=
  let y := if m ≤ 2 then y - 1 else y
  let era := (if 0 ≤ y then y else y - 399) / 400
  let yoe := y - era * 400
  let doy := (153 * (if 2 < m then m - 3 else m + 9) + 2) / 5 + d - 1
  let doe := yoe * 365 + yoe / 4 - yoe / 100 + doy
  era * 146097 + doe - 719468

/-- The instant (seconds since the epoch, UTC) of the midnight that
time.Parse("2006-01-02", _) produces. -/
def GoDate.instant (dt : GoDate) : Int :=
  86400 * daysFromCivil dt.year dt.month dt.day

/- ---------- JSON values, mirroring encoding/json into map[string]any ---------- -/

inductive Json where
  | jnull
  | jbool (b : Bool)
  | jnum (n : Int)
  | jstr (s : String)
  | jarr (elems : List Json)
  | jobj (fields : List (String × Json))

def Json.asObj : Json → Option (List (String × Json))
  | .jobj fs => some fs
  | _ => none

def Json.asStr : Json → Option String
  | .jstr s => some s
  | _ => none

/-- Map lookup over decoded JSON object fields. -/
def lookupField (fields : List (String × Json)) (key : String) : Option Json :=
  match fields with
  | [] => none
  | (k, v) :: rest => if k = key then some v else lookupField rest key

/-- Lookup of a field whose value must be a JSON string, mirroring the
Go type assertion value.(string). -/
def lookupStr (fields : List (String × Json)) (key : String) : Option String :=
  (lookupField fields key).bind Json.asStr

def failedPreconditionMsg : String :=
  "FAILED_PRECONDITION - Continuing without interrupting the process"

def unauthorizedMsg : String :=
  "Unauthorized - the client must authenticate itself"

/-- Translation of parseError from main.go.  json.Unmarshal is modelled
by the explicit parameter u giving the decoded top-level object, or none
when decoding fails. -/
def parseError (u : String → Option (List (String × Json))) (stderr : String) : String :=
  let early : Option String :=
    match u stderr with
    | some parsedError =>
      match (lookupField parsedError "error").bind Json.asObj with
      | some errorInfo =>
        match lookupStr errorInfo "status" with
        | some status =>
          if status = "FAILED_PRECONDITION" then some failedPreconditionMsg
          else
            match lookupStr errorInfo "message" with
            | some message => some message
            | none => none
        | none =>
          match lookupStr errorInfo "message" with
          | some message => some message
          | none => none
      | none => none
    | none => none
  match early with
  | some r => r
  | none => if strContains stderr unauthorizedMsg then unauthorizedMsg else stderr

/-- The error classifier as the specification words it: four ordered
cases over the decoded error object and the raw text. -/
def parseErrorSpec (u : String → Option (List (String × Json))) (stderr : String) : String :=
  match (u stderr).bind (fun m => (lookupField m "error").bind Json.asObj) with
  | some errorInfo =>
    if lookupStr errorInfo "status" = some "FAILED_PRECONDITION" then failedPreconditionMsg
    else
      match lookupStr errorInfo "message" with
      | some message => message
      | none => if strContains stderr unauthorizedMsg then unauthorizedMsg else stderr
  | none => if strContains stderr unauthorizedMsg then unauthorizedMsg else stderr

/- ---------- Orchestrator state, environment and event trace ---------- -/

/-- Per-project outcome record, as the Go ProjectStatus struct. -/
structure ProjectStatus where
  Project : String
  Status : String
  Reason : String
deriving DecidableEq

/-- One external invocation made while processing a project. -/
inductive Event where
  | exportCall (project : String)
  | zipCall
  | uploadCall (dest : String)
  | discordNotif (project date status reason : String)
  | workspaceNotif (project dataset status reason : String)
  | gcsDelete (path : String)
deriving DecidableEq

/-- Results of the external calls made while processing one project:
none in an error slot means the call succeeds; some e means it fails
with message e.  lsFails models a gsutil ls invocation failing for a
reason other than matching no objects (network, permissions); rmFails
models a gsutil rm failure for a given object. -/
structure StepEnv where
  backupDirExists : Bool
  removeAllErr : Option String
  mkdirBackupErr : Option String
  mkdirDateErr : Option String
  mkdirExportErr : Option String
  exportStderr : Option String
  zipErr : Option String
  uploadErr : Option String
  lsFails : String → Bool
  rmFails : String → Bool

/-- Run-wide configuration and ambient values. -/
structure Config where
  gcsBucket : String
  retentionDays : Int
  today : String
  nowInstant : Int
  unmarshal : String → Option (List (String × Json))

/-- Result of processing one project: the events that happened, and
either the outcome record with the post-run remote store (some), or a
runtime panic (none). -/
structure BPRes where
  events : List Event
  outcome : Option (ProjectStatus × List String)
deriving DecidableEq

def apigeeBackupDir : String := "/tmp/apigee_backup"

/-- The error, if any, of the workspace-reset phase: os.RemoveAll is
attempted only when the staging directory exists. -/
def resetFailure (se : StepEnv) : Option String :=
  if se.backupDirExists then se.removeAllErr else none

/-- Model of gsutil ls PREFIX over a remote store given as the list of
object paths: fails (none) when the invocation itself fails or when no
object matches the prefix, otherwise returns the matching objects. -/
def gsutilListing (lsF : String → Bool) (objects : List String) (pre : String) :
    Option (List String) :=
  if lsF pre then none
  else
    let ms := objects.filter (fun o => strStartsWith o pre)
    if ms.isEmpty then none else some ms

/-- Translation of backupExistsInGCS: the probe runs
gsutil ls gs://bucket/env/date/ and reports existence iff the command
exits successfully. -/
def backupExistsInGCS (lsF : String → Bool) (objects : List String)
    (gcsBucket date env : String) : Bool :=
  (gsutilListing lsF objects
    ("gs://" ++ gcsBucket ++ "/" ++ env ++ "/" ++ date ++ "/")).isSome

/-- The destination URI computed by uploadToGCS. -/
def uploadToGCSDest (gcsBucket sourceFile env : String) : String :=
  "gs://" ++ gcsBucket ++ "/" ++ env ++ "/" ++ goFilepathBase sourceFile

/-- Translation of isOlderThanRetention: extract a positional slice of
the basename, parse it as a date, compare with the cutoff.  none models
the Go slice-bounds panic; some false both for an unparseable date
(logged, skipped) and for a date at or after the cutoff. -/
def isOlderThanRetention (gcsPath : String) (cutoff : Int) (env : String) : Option Bool :=
  let base := goFilepathBase gcsPath
  match goStringSlice base (("backup_" ++ env ++ "_").length : Int)
      ((base.length : Int) - 4) with
  | none => none
  | some dateStr =>
    match parseGoDate dateStr with
    | none => some false
    | some d => some (decide (d.instant < cutoff))

/-- The per-line sweep of cleanupOldBackups over the listed objects:
deletes (when gsutil rm succeeds) each object isOlderThanRetention
accepts, threads the remote store, and stops with none on a panic. -/
def cleanupLoop (rmF : String → Bool) (cutoff : Int) (env : String)
    (gcs : List String) : List String → List Event × Option (List String)
  | [] => ([], some gcs)
  | line :: rest =>
    match isOlderThanRetention line cutoff env with
    | none => ([], none)
    | some false => cleanupLoop rmF cutoff env gcs rest
    | some true =>
      if rmF line then cleanupLoop rmF cutoff env gcs rest
      else
        let r := cleanupLoop rmF cutoff env (gcs.filter (fun o => o ≠ line)) rest
        (Event.gcsDelete line :: r.1, r.2)

/-- Translation of cleanupOldBackups: list gs://bucket/env/, wrap a
listing failure (the exec error is rendered as exit status 1), then
sweep the listed lines.  Returns the delete events together with either
an error, the updated store, or none for a panic. -/
def cleanupOldBackups (se : StepEnv) (gcs : List String) (bucket : String)
    (retentionDays : Int) (nowInstant : Int) (env : String) :
    List Event × Option (Except String (List String)) :=
  match gsutilListing se.lsFails gcs ("gs://" ++ bucket ++ "/" ++ env ++ "/") with
  | none => ([], some (Except.error "failed to list GCS bucket: exit status 1"))
  | some lines =>
    let cutoff := nowInstant - 86400 * retentionDays
    let r := cleanupLoop se.rmFails cutoff env gcs lines
    (r.1, r.2.map Except.ok)

/-- The tail of backupProject after the export invocation: zip, upload,
success notifications, retention sweep.  evs0 are the events already
emitted (the export invocation). -/
def backupProjectFinish (cfg : Config) (se : StepEnv) (gcs : List String)
    (project : String) (evs0 : List Event) : BPRes :=
  let today := cfg.today
  let zipFile := apigeeBackupDir ++ "/" ++ today ++ "/" ++
    ("backup_" ++ project ++ "_" ++ today ++ ".zip")
  match se.zipErr with
  | some e =>
    ⟨evs0 ++ [Event.zipCall],
     some (⟨project, "Failed", "Failed to zip folder: " ++ e⟩, gcs)⟩
  | none =>
    let dest := uploadToGCSDest cfg.gcsBucket zipFile project
    match se.uploadErr with
    | some e =>
      ⟨evs0 ++ [Event.zipCall, Event.uploadCall dest],
       some (⟨project, "Failed", "Failed to upload backup to GCS: " ++ e⟩, gcs)⟩
    | none =>
      let gcs1 := gcs ++ [dest]
      let evs1 := evs0 ++ [Event.zipCall, Event.uploadCall dest,
        Event.discordNotif project today "Complete" "no issue",
        Event.workspaceNotif project ("apigee-" ++ project) "Complete" "no issue"]
      let c := cleanupOldBackups se gcs1 cfg.gcsBucket cfg.retentionDays cfg.nowInstant project
      match c.2 with
      | none => ⟨evs1 ++ c.1, none⟩
      | some (Except.error e) =>
        ⟨evs1 ++ c.1,
         some (⟨project, "Failed", "Failed to clean up old backups: " ++ e⟩, gcs1)⟩
      | some (Except.ok gcs2) =>
        ⟨evs1 ++ c.1, some (⟨project, "Complete", "no issue"⟩, gcs2)⟩

/-- Translation of backupProject: workspace reset, duplicate probe,
folder creation, export (with error classification and the
FAILED_PRECONDITION continue), then the finishing steps. -/
def backupProject (cfg : Config) (se : StepEnv) (gcs : List String)
    (project : String) : BPRes :=
  match resetFailure se with
  | some e =>
    ⟨[], some (⟨project, "Failed", "Failed to delete existing backup directory: " ++ e⟩, gcs)⟩
  | none =>
    match se.mkdirBackupErr with
    | some e =>
      ⟨[], some (⟨project, "Failed", "Failed to create backup directory: " ++ e⟩, gcs)⟩
    | none =>
      if backupExistsInGCS se.lsFails gcs cfg.gcsBucket cfg.today project then
        ⟨[], some (⟨project, "Complete", "no issue"⟩, gcs)⟩
      else
        match se.mkdirDateErr with
        | some e =>
          ⟨[], some (⟨project, "Failed", "Failed to create date folder: " ++ e⟩, gcs)⟩
        | none =>
          match se.mkdirExportErr with
          | some e =>
            ⟨[], some (⟨project, "Failed", "Failed to create export folder: " ++ e⟩, gcs)⟩
          | none =>
            match se.exportStderr with
            | some s =>
              let errorMessage := parseError cfg.unmarshal s
              if strContains errorMessage "FAILED_PRECONDITION" = false then
                ⟨[Event.exportCall project,
                  Event.discordNotif project cfg.today "Failed" errorMessage,
                  Event.workspaceNotif project ("apigee-" ++ project) "Failed" errorMessage],
                 some (⟨project, "Failed", errorMessage⟩, gcs)⟩
              else
                backupProjectFinish cfg se gcs project [Event.exportCall project]
            | none =>
              backupProjectFinish cfg se gcs project [Event.exportCall project]

/-- The per-project loop of main: the environment of each project is
given by envOf; the remote store is threaded through.  A panic aborts
the loop: the statuses accumulated so far are lost (the process dies
before sendFinalNotification) and the final store is none. -/
def runBackups (cfg : Config) (envOf : String → StepEnv) (gcs : List String) :
    List String → List ProjectStatus × List Event × Option (List String)
  | [] => ([], [], some gcs)
  | p :: ps =>
    let r := backupProject cfg (envOf p) gcs p
    match r.outcome with
    | none => ([], r.events, none)
    | some (st, gcs1) =>
      let rest := runBackups cfg envOf gcs1 ps
      (st :: rest.1, r.events ++ rest.2.1, rest.2.2)

/- ---------- Project list reader ---------- -/

/-- Translation of readProjectFile: the outcome of os.Open plus reading
is the Except parameter (error: the file could not be opened or read;
ok: its full contents); the scanner loop trims each line and appends it
when non-blank. -/
def readProjectFile (opened : Except String String) : Except String (List String) :=
  match opened with
  | .error e => .error e
  | .ok content =>
    .ok ((goScanLines content).foldl
      (fun acc line =>
        let project := goTrimSpace line
        if project ≠ "" then acc ++ [project] else acc) [])

/-- The reader as the specification words it: the trimmed, non-blank
lines in file order; an error exactly when the file cannot be read. -/
def readProjectFileSpec (opened : Except String String) : Except String (List String) :=
  match opened with
  | .error e => .error e
  | .ok content => .ok (((goScanLines content).map goTrimSpace).filter (fun l => l ≠ ""))

/-- Does the basename match the documented naming convention
backup_<env>_<date>.zip with a valid date?  Follows the specification:
the name must be literally the prefix, a date acceptable to the date
parser, and the .zip suffix. -/
def specConventionDate (base env : String) : Option GoDate :=
  match goStringSlice base (("backup_" ++ env ++ "_").length : Int)
      ((base.length : Int) - 4) with
  | none => none
  | some mid =>
    if base = "backup_" ++ env ++ "_" ++ mid ++ ".zip" then parseGoDate mid else none

/- ---------- Concrete fixtures used by witnesses and counterexamples ---------- -/

/-- Environment in which every external call succeeds. -/
def envAllOk : StepEnv :=
  { backupDirExists := false, removeAllErr := none, mkdirBackupErr := none,
    mkdirDateErr := none, mkdirExportErr := none, exportStderr := none,
    zipErr := none, uploadErr := none,
    lsFails := fun _ => false, rmFails := fun _ => false }

/-- Decoder for inputs that are not valid JSON at all. -/
def noJson : String → Option (List (String × Json)) := fun _ => none

def cfgW : Config :=
  { gcsBucket := "b", retentionDays := 7, today := "2024-06-01",
    nowInstant := 0, unmarshal := noJson }

/-- The stderr text of the quota scenario from the specification. -/
def quotaStderr : String := "\x7b\x22error\x22:\x7b\x22message\x22:\x22quota exceeded\x22\x7d\x7d"

/-- JSON decoding restricted to the quota scenario payload. -/
def unmarshalQuota : String → Option (List (String × Json)) :=
  fun s =>
    if s = quotaStderr then
      some [("error", Json.jobj [("message", Json.jstr "quota exceeded")])]
    else none

def cfgQuota : Config :=
  { gcsBucket := "b", retentionDays := 7, today := "2024-06-01",
    nowInstant := 0, unmarshal := unmarshalQuota }

/-- Environment whose export invocation exits non-zero with the quota
scenario stderr. -/
def envExportQuota : StepEnv := { envAllOk with exportStderr := some quotaStderr }

/-- Environment whose gsutil ls of the cleanup prefix for project p
fails even though objects exist there. -/
def envLsFail : StepEnv := { envAllOk with lsFails := fun pre => pre == "gs://b/p/" }

/-- Raw unstructured stderr containing both the unauthorized sentence
and the FAILED_PRECONDITION token. -/
def bothTokensStderr : String :=
  unauthorizedMsg ++ " while export hit FAILED_PRECONDITION"

def envBothTokens : StepEnv := { envAllOk with exportStderr := some bothTokensStderr }

/-- Raw unstructured stderr containing the FAILED_PRECONDITION token only. -/
def rawPrecondStderr : String := "error: FAILED_PRECONDITION: org not provisioned"

def envRawPrecond : StepEnv := { envAllOk with exportStderr := some rawPrecondStderr }

/-- A listed object whose basename does not match the documented naming
convention for project p, yet whose positional byte slice is a date. -/
def nonConformPath : String := "gs://b/p/XXXXXXXXX2000-01-01.zip"

/-- Remote store for the retention scenario of the specification. -/
def retGcs : List String :=
  ["gs://b/proj-a/backup_proj-a_2024-01-01.zip",
   "gs://b/proj-a/backup_proj-a_2024-02-20.zip"]

def retNow : Int := 86400 * daysFromCivil 2024 3 1

/- ---------- Shared helper lemmas ---------- -/

/-- Once control reaches the post-export steps, the zip invocation
always happens, whatever the later calls return. -/
theorem zipCall_mem_finish (cfg : Config) (se : StepEnv) (gcs : List String)
    (p : String) (evs0 : List Event) :
    Event.zipCall ∈ (backupProjectFinish cfg se gcs p evs0).events := by
  unfold backupProjectFinish
  cases hz : se.zipErr with
  | some e => simp
  | none =>
    cases hu : se.uploadErr with
    | some e => simp
    | none =>
      simp only []
      split <;> simp

/-- Membership of delete events in the cleanup sweep, assuming no line
panics and every rm succeeds. -/
theorem cleanupLoop_delete_mem (rmF : String → Bool) (cutoff : Int) (env : String)
    (hrm : ∀ l, rmF l = false) (lines : List String) :
    ∀ (gcs : List String),
      (∀ l ∈ lines, (isOlderThanRetention l cutoff env).isSome = true) →
      ∀ x, (Event.gcsDelete x ∈ (cleanupLoop rmF cutoff env gcs lines).1 ↔
        x ∈ lines ∧ isOlderThanRetention x cutoff env = some true) := by
  induction lines with
  | nil => intro gcs h x; simp [cleanupLoop]
  | cons line rest ih =>
    intro gcs h x
    have hline := h line (List.mem_cons_self _ _)
    cases ho : isOlderThanRetention line cutoff env with
    | none => rw [ho] at hline; simp at hline
    | some b =>
      cases b with
      | false =>
        simp only [cleanupLoop, ho]
        rw [ih gcs (fun l hl => h l (List.mem_cons_of_mem _ hl)) x]
        constructor
        · rintro ⟨hx, hold⟩
          exact ⟨List.mem_cons_of_mem _ hx, hold⟩
        · rintro ⟨hx, hold⟩
          rcases List.mem_cons.mp hx with rfl | hx
          · rw [ho] at hold
            simp at hold
          · exact ⟨hx, hold⟩
      | true =>
        have heq : cleanupLoop rmF cutoff env gcs (line :: rest) =
            (Event.gcsDelete line ::
              (cleanupLoop rmF cutoff env (gcs.filter (fun o => o ≠ line)) rest).1,
             (cleanupLoop rmF cutoff env (gcs.filter (fun o => o ≠ line)) rest).2) := by
          simp [cleanupLoop, ho, hrm line]
        rw [heq]
        rw [List.mem_cons]
        rw [List.mem_cons]
        rw [ih (gcs.filter (fun o => o ≠ line))
              (fun l hl => h l (List.mem_cons_of_mem _ hl)) x]
        simp only [Event.gcsDelete.injEq]
        constructor
        · rintro (rfl | ⟨hx, hold⟩)
          · exact ⟨Or.inl rfl, ho⟩
          · exact ⟨Or.inr hx, hold⟩
        · rintro ⟨rfl | hx, hold⟩
          · exact Or.inl rfl
          · exact Or.inr ⟨hx, hold⟩

/-- A basename matching the documented naming convention is judged by
the code exactly by comparing its embedded date with the cutoff. -/
theorem specConvention_isOlder (l env : String) (cutoff : Int) (d : GoDate)
    (h : specConventionDate (goFilepathBase l) env = some d) :
    isOlderThanRetention l cutoff env = some (decide (d.instant < cutoff)) := by
  unfold specConventionDate at h
  simp only [isOlderThanRetention]
  cases hs : goStringSlice (goFilepathBase l) (("backup_" ++ env ++ "_").length : Int)
      (((goFilepathBase l).length : Int) - 4) with
  | none => rw [hs] at h; cases h
  | some mid =>
    rw [hs] at h
    dsimp only at h ⊢
    split at h
    · rw [h]
    · cases h

/-- The scanner loop of readProjectFile collects exactly the trimmed
non-blank tokens, in order. -/
theorem readProjectFile_foldl (l : List String) (acc : List String) :
    l.foldl (fun acc line =>
      let project := goTrimSpace line
      if project ≠ "" then acc ++ [project] else acc) acc
    = acc ++ (l.map goTrimSpace).filter (fun x => x ≠ "") := by
  induction l generalizing acc with
  | nil => simp
  | cons hd tl ih =>
    simp only [List.foldl_cons, List.map_cons, List.filter_cons]
    by_cases hc : goTrimSpace hd ≠ ""
    · rw [if_pos hc, ih]
      simp [hc]
    · rw [if_neg hc, ih]
      push_neg at hc
      simp [hc]

/- ---------- Claim theorems ---------- -/

/-- Claim C1 (code_bug): the claim says every project in the input list
yields exactly one BackupOutcome because backupProject never panics.
The code can panic: with every external step succeeding but the remote
namespace of project p already holding an object gs://b/p/x.zip whose
basename is shorter than the expected pattern, the retention sweep hits
a slice-bounds panic inside isOlderThanRetention, the run dies, and the
two-project list produces zero outcome records instead of two. -/
theorem c1_panic_loses_outcomes :
    (runBackups cfgW (fun _ => envAllOk) ["gs://b/p/x.zip"] ["p", "q"]).1 = [] ∧
    (runBackups cfgW (fun _ => envAllOk) ["gs://b/p/x.zip"] ["p", "q"]).2.2 = none ∧
    (backupProject cfgW envAllOk ["gs://b/p/x.zip"] "p").outcome = none := by
  exact ⟨rfl, rfl, rfl⟩

/-- Claim C3 (code_bug): the claim says a successful upload makes the
same-day existence probe true, so a rerun is a no-op.  In the code the
upload stores the archive at gs://bucket/project/backup_project_date.zip
while the probe lists gs://bucket/project/date/, a prefix the uploaded
object never matches: starting from an empty store, a run for project p
completes and uploads, yet the probe still reports false and a second
run on the same day invokes the export tool again. -/
theorem c3_upload_not_seen_by_probe :
    (backupProject cfgW envAllOk [] "p").outcome =
      some (⟨"p", "Complete", "no issue"⟩, ["gs://b/p/backup_p_2024-06-01.zip"]) ∧
    backupExistsInGCS (fun _ => false) ["gs://b/p/backup_p_2024-06-01.zip"]
      "b" "2024-06-01" "p" = false ∧
    Event.exportCall "p" ∈
      (backupProject cfgW envAllOk ["gs://b/p/backup_p_2024-06-01.zip"] "p").events := by
  refine ⟨rfl, rfl, ?_⟩
  decide

/-- Claim C6 (code_bug): the claim says a listed path whose filename
cannot be parsed — including names too short for the expected prefix
and suffix — is skipped and the sweep continues.  On the listed path
gs://b/p/x.zip with project p the slice bounds 9 and 1 are invalid, so
the code panics instead of skipping: both the per-path check and the
whole sweep abort. -/
theorem c6_short_name_panics_sweep :
    isOlderThanRetention "gs://b/p/x.zip" 0 "p" = none ∧
    (cleanupOldBackups envAllOk ["gs://b/p/x.zip"] "b" 7 0 "p").2 = none := by
  exact ⟨rfl, rfl⟩

/-- Claim C7 (confirmed): the error classifier equals the four ordered
cases of the specification: precondition sentinel in the status field,
then the message field, then the unauthorized substring of the raw
text, then the raw text unchanged.  The json.Unmarshal collaborator is
the explicit decoding parameter u. -/
theorem c7_classifier_case_order (u : String → Option (List (String × Json)))
    (s : String) : parseError u s = parseErrorSpec u s := by
  unfold parseError parseErrorSpec
  cases hu : u s with
  | none => rfl
  | some m =>
    simp only [Option.some_bind]
    cases he : (lookupField m "error").bind Json.asObj with
    | none => rfl
    | some eo =>
      dsimp only
      cases hs : lookupStr eo "status" with
      | none => cases hm : lookupStr eo "message" <;> rfl
      | some st =>
        dsimp only
        by_cases hf : st = "FAILED_PRECONDITION"
        · subst hf
          simp
        · cases hm : lookupStr eo "message" with
          | none => simp [hf]
          | some msg => simp [hf]

/-- Claim C9 (confirmed): the reader returns exactly the
whitespace-trimmed non-blank lines of the file in original order, and
an error exactly when the file cannot be opened or read (the file
system outcome is the Except-valued input of the model). -/
theorem c9_reader_trimmed_nonblank_in_order (opened : Except String String) :
    readProjectFile opened = readProjectFileSpec opened := by
  cases opened with
  | error e => rfl
  | ok content =>
    unfold readProjectFile readProjectFileSpec
    dsimp only
    rw [readProjectFile_foldl]
    simp

/-- Claim C5 counterexample: cleanup does not delete exactly the
convention-named objects: extraction is a positional slice that never
checks the backup_<project>_ prefix or the .zip suffix, so the listed
object gs://b/p/XXXXXXXXX2000-01-01.zip — whose basename does not match
the convention for project p — is deleted because bytes 9..18 happen to
read as an old date. -/
theorem c5_deletes_nonconforming_name :
    Event.gcsDelete nonConformPath ∈
      (cleanupOldBackups envAllOk [nonConformPath] "b" 7 1717200000 "p").1 ∧
    specConventionDate (goFilepathBase nonConformPath) "p" = none := by
  constructor
  · decide
  · rfl

/-- Claim C5 as amended: provided the listing succeeds, every gsutil rm
succeeds and no listed basename is short enough to panic the slice, the
sweep deletes exactly the listed objects whose positional date slice
parses to a date strictly before now minus retentionDays; consequently
an object whose basename does match the documented convention is
deleted exactly when its embedded date is strictly before the cutoff
(and never when it is at or after it), while a non-conforming name may
also be deleted when its slice parses. -/
theorem c5_delete_set_characterization (se : StepEnv) (gcs : List String)
    (bucket : String) (r now : Int) (env : String) (lines : List String)
    (hls : gsutilListing se.lsFails gcs ("gs://" ++ bucket ++ "/" ++ env ++ "/") = some lines)
    (hrm : ∀ l, se.rmFails l = false)
    (hok : ∀ l ∈ lines, (isOlderThanRetention l (now - 86400 * r) env).isSome = true) :
    (∀ x, Event.gcsDelete x ∈ (cleanupOldBackups se gcs bucket r now env).1 ↔
        x ∈ lines ∧ isOlderThanRetention x (now - 86400 * r) env = some true) ∧
    (∀ x ∈ lines, ∀ d, specConventionDate (goFilepathBase x) env = some d →
        (Event.gcsDelete x ∈ (cleanupOldBackups se gcs bucket r now env).1 ↔
          d.instant < now - 86400 * r)) := by
  have hmain : ∀ x, Event.gcsDelete x ∈ (cleanupOldBackups se gcs bucket r now env).1 ↔
      x ∈ lines ∧ isOlderThanRetention x (now - 86400 * r) env = some true := by
    intro x
    unfold cleanupOldBackups
    rw [hls]
    exact cleanupLoop_delete_mem se.rmFails (now - 86400 * r) env hrm lines gcs hok x
  refine ⟨hmain, ?_⟩
  intro x hx d hd
  rw [hmain x]
  have hbr := specConvention_isOlder x env (now - 86400 * r) d hd
  constructor
  · rintro ⟨-, hold⟩
    rw [hbr] at hold
    have := Option.some.inj hold
    exact of_decide_eq_true this
  · intro hlt
    refine ⟨hx, ?_⟩
    rw [hbr]
    simp [hlt]

/-- Claim C5 witness: the retention scenario of the specification:
retention 30 days, now 2024-03-01; the conforming archive dated
2024-01-01 is deleted and the conforming archive dated 2024-02-20 is
kept. -/
theorem c5_delete_set_witness :
    Event.gcsDelete "gs://b/proj-a/backup_proj-a_2024-01-01.zip" ∈
      (cleanupOldBackups envAllOk retGcs "b" 30 retNow "proj-a").1 ∧
    Event.gcsDelete "gs://b/proj-a/backup_proj-a_2024-02-20.zip" ∉
      (cleanupOldBackups envAllOk retGcs "b" 30 retNow "proj-a").1 := by
  have h := c5_delete_set_characterization envAllOk retGcs "b" 30 retNow "proj-a" retGcs
    rfl (fun _ => rfl) (by decide)
  constructor
  · exact (h.1 _).mpr ⟨by decide, by decide⟩
  · intro hmem
    exact absurd ((h.1 _).mp hmem).2 (by decide)

/-- Claim C10 counterexample: not every raw unstructured stderr
containing FAILED_PRECONDITION continues: a non-JSON stderr that also
contains the unauthorized sentence is canonicalized to the unauthorized
message, which lacks the token, so the project is marked Failed and no
archive step runs. -/
theorem c10_raw_token_with_unauthorized_stops :
    strContains bothTokensStderr "FAILED_PRECONDITION" = true ∧
    (backupProject cfgW envBothTokens [] "p").outcome =
      some (⟨"p", "Failed", unauthorizedMsg⟩, []) ∧
    Event.zipCall ∉ (backupProject cfgW envBothTokens [] "p").events := by
  refine ⟨rfl, rfl, ?_⟩
  decide

/-- When the run reaches the export step and the export tool exits
non-zero with captured stderr s, processing either stops with the
classified message (and both Failed notifications) or continues to the
finishing steps, decided by the FAILED_PRECONDITION substring test on
the classified message. -/
theorem backupProject_export_branch (cfg : Config) (se : StepEnv)
    (gcs : List String) (p s : String)
    (h1 : resetFailure se = none) (h2 : se.mkdirBackupErr = none)
    (h3 : backupExistsInGCS se.lsFails gcs cfg.gcsBucket cfg.today p = false)
    (h4 : se.mkdirDateErr = none) (h5 : se.mkdirExportErr = none)
    (h6 : se.exportStderr = some s) :
    backupProject cfg se gcs p =
      (if strContains (parseError cfg.unmarshal s) "FAILED_PRECONDITION" = false then
        ⟨[Event.exportCall p,
          Event.discordNotif p cfg.today "Failed" (parseError cfg.unmarshal s),
          Event.workspaceNotif p ("apigee-" ++ p) "Failed" (parseError cfg.unmarshal s)],
         some (⟨p, "Failed", parseError cfg.unmarshal s⟩, gcs)⟩
      else backupProjectFinish cfg se gcs p [Event.exportCall p]) := by
  unfold backupProject
  rw [h1]
  dsimp only
  rw [h2]
  dsimp only
  rw [if_neg (by simp [h3])]
  rw [h4]
  dsimp only
  rw [h5]
  dsimp only
  rw [h6]

/-- Claim C2 (confirmed): when the workspace reset and staging-folder
creation succeed and the existence probe for today reports true, the
project returns immediately with status Complete and reason no issue,
and its event trace is empty: no export, no archive, no upload, no
notification, no deletion. -/
theorem c2_probe_hit_returns_complete (cfg : Config) (se : StepEnv)
    (gcs : List String) (p : String)
    (h1 : resetFailure se = none) (h2 : se.mkdirBackupErr = none)
    (h3 : backupExistsInGCS se.lsFails gcs cfg.gcsBucket cfg.today p = true) :
    backupProject cfg se gcs p = ⟨[], some (⟨p, "Complete", "no issue"⟩, gcs)⟩ := by
  unfold backupProject
  rw [h1]
  dsimp only
  rw [h2]
  dsimp only
  rw [if_pos h3]

/-- Claim C2 witness: with a remote object under today's date prefix,
the probe is true and the project is skipped with an empty trace. -/
theorem c2_probe_hit_witness :
    backupProject cfgW envAllOk ["gs://b/p/2024-06-01/old-backup"] "p" =
      ⟨[], some (⟨"p", "Complete", "no issue"⟩, ["gs://b/p/2024-06-01/old-backup"])⟩ :=
  c2_probe_hit_returns_complete cfgW envAllOk ["gs://b/p/2024-06-01/old-backup"] "p"
    rfl rfl rfl

/-- Claim C4 (confirmed): on a non-zero export exit, if the classified
message lacks the FAILED_PRECONDITION token the project is marked
Failed with that message as reason, Failed notifications go to both
sinks, and no archive or upload event occurs (the outcome is still a
record, so the run continues with the next project); if the classified
message carries the token, processing continues into the archive step. -/
theorem c4_export_error_paths (cfg : Config) (se : StepEnv) (gcs : List String)
    (p s : String)
    (h1 : resetFailure se = none) (h2 : se.mkdirBackupErr = none)
    (h3 : backupExistsInGCS se.lsFails gcs cfg.gcsBucket cfg.today p = false)
    (h4 : se.mkdirDateErr = none) (h5 : se.mkdirExportErr = none)
    (h6 : se.exportStderr = some s) :
    (strContains (parseError cfg.unmarshal s) "FAILED_PRECONDITION" = false →
      backupProject cfg se gcs p =
        ⟨[Event.exportCall p,
          Event.discordNotif p cfg.today "Failed" (parseError cfg.unmarshal s),
          Event.workspaceNotif p ("apigee-" ++ p) "Failed" (parseError cfg.unmarshal s)],
         some (⟨p, "Failed", parseError cfg.unmarshal s⟩, gcs)⟩) ∧
    (strContains (parseError cfg.unmarshal s) "FAILED_PRECONDITION" = true →
      Event.zipCall ∈ (backupProject cfg se gcs p).events) := by
  have hred := backupProject_export_branch cfg se gcs p s h1 h2 h3 h4 h5 h6
  constructor
  · intro hc
    rw [hred, if_pos hc]
  · intro hc
    rw [hred, if_neg (by simp [hc])]
    exact zipCall_mem_finish cfg se gcs p [Event.exportCall p]

/-- Claim C4 witness: the quota scenario of the specification: stderr
is a structured payload with message quota exceeded; the outcome is
Failed with reason quota exceeded, Failed notifications reach both
sinks, and no archive or upload event occurs. -/
theorem c4_export_error_witness :
    backupProject cfgQuota envExportQuota [] "p" =
      ⟨[Event.exportCall "p",
        Event.discordNotif "p" "2024-06-01" "Failed" "quota exceeded",
        Event.workspaceNotif "p" "apigee-p" "Failed" "quota exceeded"],
       some (⟨"p", "Failed", "quota exceeded"⟩, [])⟩ := by
  have h := (c4_export_error_paths cfgQuota envExportQuota [] "p" quotaStderr
    rfl rfl rfl rfl rfl rfl).1 rfl
  exact h.trans (by rfl)

/-- Claim C8 (confirmed): when export, archive and upload succeed but
the retention listing fails, the Complete notifications to both sinks
have already been sent and stay in the trace, while the final outcome
is downgraded to Failed with the wrapped retention error as reason. -/
theorem c8_retention_failure_downgrades (cfg : Config) (se : StepEnv)
    (gcs : List String) (p : String)
    (h1 : resetFailure se = none) (h2 : se.mkdirBackupErr = none)
    (h3 : backupExistsInGCS se.lsFails gcs cfg.gcsBucket cfg.today p = false)
    (h4 : se.mkdirDateErr = none) (h5 : se.mkdirExportErr = none)
    (h6 : se.exportStderr = none) (h7 : se.zipErr = none) (h8 : se.uploadErr = none)
    (h9 : se.lsFails ("gs://" ++ cfg.gcsBucket ++ "/" ++ p ++ "/") = true) :
    backupProject cfg se gcs p =
      ⟨[Event.exportCall p, Event.zipCall,
        Event.uploadCall (uploadToGCSDest cfg.gcsBucket
          (apigeeBackupDir ++ "/" ++ cfg.today ++ "/" ++
            ("backup_" ++ p ++ "_" ++ cfg.today ++ ".zip")) p),
        Event.discordNotif p cfg.today "Complete" "no issue",
        Event.workspaceNotif p ("apigee-" ++ p) "Complete" "no issue"],
       some (⟨p, "Failed",
          "Failed to clean up old backups: failed to list GCS bucket: exit status 1"⟩,
         gcs ++ [uploadToGCSDest cfg.gcsBucket
          (apigeeBackupDir ++ "/" ++ cfg.today ++ "/" ++
            ("backup_" ++ p ++ "_" ++ cfg.today ++ ".zip")) p])⟩ := by
  unfold backupProject
  rw [h1]
  dsimp only
  rw [h2]
  dsimp only
  rw [if_neg (by simp [h3])]
  rw [h4]
  dsimp only
  rw [h5]
  dsimp only
  rw [h6]
  dsimp only
  unfold backupProjectFinish
  rw [h7]
  dsimp only
  rw [h8]
  dsimp only
  unfold cleanupOldBackups gsutilListing
  rw [if_pos h9]
  simp

/-- Claim C8 witness: concrete run in which the cleanup listing command
fails for project p: the Complete notifications are in the trace and
the outcome is Failed with the retention error. -/
theorem c8_retention_failure_witness :
    backupProject cfgW envLsFail [] "p" =
      ⟨[Event.exportCall "p", Event.zipCall,
        Event.uploadCall "gs://b/p/backup_p_2024-06-01.zip",
        Event.discordNotif "p" "2024-06-01" "Complete" "no issue",
        Event.workspaceNotif "p" "apigee-p" "Complete" "no issue"],
       some (⟨"p", "Failed",
          "Failed to clean up old backups: failed to list GCS bucket: exit status 1"⟩,
         ["gs://b/p/backup_p_2024-06-01.zip"])⟩ := by
  have h := c8_retention_failure_downgrades cfgW envLsFail [] "p"
    rfl rfl rfl rfl rfl rfl rfl rfl rfl
  exact h.trans (by rfl)

/-- Claim C10 as amended: after a non-zero export exit the decision to
continue is exactly the substring test on the classified message; raw
unstructured stderr containing the token therefore continues provided
the classifier leaves it unchanged, i.e. it does not also contain the
unauthorized sentence that would be canonicalized away. -/
theorem c10_continue_iff_classified_token (cfg : Config) (se : StepEnv)
    (gcs : List String) (p s : String)
    (h1 : resetFailure se = none) (h2 : se.mkdirBackupErr = none)
    (h3 : backupExistsInGCS se.lsFails gcs cfg.gcsBucket cfg.today p = false)
    (h4 : se.mkdirDateErr = none) (h5 : se.mkdirExportErr = none)
    (h6 : se.exportStderr = some s) :
    (Event.zipCall ∈ (backupProject cfg se gcs p).events ↔
      strContains (parseError cfg.unmarshal s) "FAILED_PRECONDITION" = true) ∧
    (cfg.unmarshal s = none → strContains s unauthorizedMsg = false →
      strContains s "FAILED_PRECONDITION" = true →
      Event.zipCall ∈ (backupProject cfg se gcs p).events) := by
  have hred := backupProject_export_branch cfg se gcs p s h1 h2 h3 h4 h5 h6
  have hiff : Event.zipCall ∈ (backupProject cfg se gcs p).events ↔
      strContains (parseError cfg.unmarshal s) "FAILED_PRECONDITION" = true := by
    cases hb : strContains (parseError cfg.unmarshal s) "FAILED_PRECONDITION" with
    | false =>
      rw [hred, if_pos hb]
      simp
    | true =>
      rw [hred, if_neg (by simp [hb])]
      exact iff_of_true (zipCall_mem_finish cfg se gcs p [Event.exportCall p]) rfl
  refine ⟨hiff, ?_⟩
  intro hu hun htok
  have hp : parseError cfg.unmarshal s = s := by
    unfold parseError
    rw [hu]
    dsimp only
    rw [if_neg (by simp [hun])]
  exact hiff.mpr (by rw [hp]; exact htok)

/-- Claim C10 witness: raw unstructured stderr containing only the
FAILED_PRECONDITION token is returned unchanged by the classifier and
processing continues into the archive step. -/
theorem c10_continue_witness :
    Event.zipCall ∈ (backupProject cfgW envRawPrecond [] "p").events :=
  (c10_continue_iff_classified_token cfgW envRawPrecond [] "p" rawPrecondStderr
    rfl rfl rfl rfl rfl rfl).2 rfl rfl rfl
